import Mathlib

/-!
Verification of the watch/debounce/reload event core of sfs-cli.

The development shallowly embeds `src/internal/daemon/daemon.go` (package
`daemon`): the debounce handler and its deferred upload callback, the
`create_watcher` path expansion, the `ensure` startup helper, and the main
`select` loop of `Run`.  External collaborators (fsnotify, the config
source, the API client, `time.AfterFunc`) appear as explicit parameters or
as small operational models of their documented behaviour.  Times are
naturals measured in milliseconds.
-/

namespace Daemon

/-- Embeds `const debounceDelay = 500 * time.Millisecond` (daemon.go:22),
in milliseconds. -/
def debounceDelay : Nat := 500

/-! ## Debounce timing model (daemon.go:160-185, one path)

For a single file path, the handler body under `case event := <-fileWatcher.Events`
is: stop the existing timer for the path if one exists, then store a new
`time.AfterFunc(debounceDelay, ...)` timer.  `time.AfterFunc` fires its callback
once the delay has elapsed unless `Stop` intervenes first; `Stop` prevents the
firing only if the timer has not already fired. -/

/-- Executes the debounce protocol of daemon.go:160-185 over a strictly
increasing list of event times for one path.  `pend` is the deadline of the
currently scheduled timer, if any; the result is the list of times at which a
deferred upload action actually fires.  A pending timer with deadline `d` has
already fired when an event at `now ≥ d` is handled (a tie is resolved as
fired, since Go timers fire at or after their duration); otherwise
`timer.Stop()` cancels it, and in either case the new `time.AfterFunc` timer
with deadline `now + delay` replaces the map entry. -/
def debounceGo (delay : Nat) : Option Nat → List Nat → List Nat
  | none, [] => []
  | some d, [] => [d]
  | none, now :: rest => debounceGo delay (some (now + delay)) rest
  | some d, now :: rest =>
      if d ≤ now then
        d :: debounceGo delay (some (now + delay)) rest
      else
        debounceGo delay (some (now + delay)) rest

/-- Fire times of the deferred upload actions produced by a sequence of write
events for one path, starting with no timer scheduled. -/
def debounceRun (delay : Nat) (events : List Nat) : List Nat :=
  debounceGo delay none events

/-- Event times arrive strictly increasing with consecutive gaps strictly
below `delay` (the hypothesis of the debounce-collapse guarantee). -/
def tightSeq (delay : Nat) : List Nat → Prop
  | a :: b :: rest => a < b ∧ b < a + delay ∧ tightSeq delay (b :: rest)
  | _ => True

instance tightSeqDecidable (delay : Nat) : ∀ l : List Nat, Decidable (tightSeq delay l)
  | [] => isTrue trivial
  | [_] => isTrue trivial
  | a :: b :: rest =>
      haveI : Decidable (tightSeq delay (b :: rest)) := tightSeqDecidable delay (b :: rest)
      decidable_of_iff (a < b ∧ b < a + delay ∧ tightSeq delay (b :: rest)) Iff.rfl

/-! ## Debounce registry model (daemon.go:24-27, 160-185)

The package-level map `debounceTimers : map[string]*time.Timer` guarded by
`debounceMutex`.  Every access below happens with the lock held, matching the
source; we therefore model the registry as sequential state threaded through
the operations.  Timers are identified by allocation order; `stopped` records
the identities on which `timer.Stop()` was called. -/

structure Reg where
  /-- The `debounceTimers` map, as an association list path → timer identity. -/
  entries : List (String × Nat)
  /-- Timer identities on which `Stop()` has been called. -/
  stopped : List Nat
  /-- Next unused timer identity. -/
  fresh : Nat
deriving Repr, DecidableEq

/-- Embeds Go `delete(m, p)` on the association-list view of the map. -/
def eraseKey (p : String) (l : List (String × Nat)) : List (String × Nat) :=
  l.filter (fun e => e.1 != p)

/-- Embeds the locked section of daemon.go:161-185 for event name `path`:
if an entry exists its timer is stopped, then a fresh `time.AfterFunc` timer
is stored under `path` (map assignment replaces the binding). -/
def trigger (path : String) (r : Reg) : Reg :=
  let stp :=
    match r.entries.lookup path with
    | some tid => tid :: r.stopped
    | none => r.stopped
  { entries := (path, r.fresh) :: eraseKey path r.entries,
    stopped := stp,
    fresh := r.fresh + 1 }

/-- Embeds the cleanup at daemon.go:181-183: the fired callback re-acquires
the lock and executes `delete(debounceTimers, event.Name)`. -/
def fireCleanup (path : String) (r : Reg) : Reg :=
  { r with entries := eraseKey path r.entries }

/-- Embeds the whole deferred callback body (daemon.go:166-184).
`clientOk` is the outcome of `api.NewClient()`, `uploadOk` of
`cli.UploadFile(event.Name, true)`.  On client failure the callback logs and
returns early — before the cleanup — leaving the registry untouched.
Otherwise the upload is attempted, its outcome logged, and the entry deleted
under the lock regardless of the upload outcome.  The second component is the
log output of the callback. -/
def fireCallback (clientOk uploadOk : Bool) (path : String) (r : Reg) :
    Reg × List String :=
  if clientOk then
    (fireCleanup path r,
      [if uploadOk then "Uploaded file" else "Failed to upload file"])
  else
    (r, ["Failed to create client"])

/-- An interleaving of registry operations: event-loop triggers and deferred
callback firings, in the serialization order imposed by `debounceMutex`. -/
inductive RegOp
  | triggerOp (path : String)
  | fireOp (path : String) (clientOk uploadOk : Bool)
deriving Repr, DecidableEq

def applyRegOp (r : Reg) : RegOp → Reg
  | .triggerOp p => trigger p r
  | .fireOp p c u => (fireCallback c u p r).1

def applyRegOps (ops : List RegOp) (r : Reg) : Reg :=
  ops.foldl applyRegOp r

/-- The registry at daemon startup: `make(map[string]*time.Timer)` (daemon.go:25). -/
def reg0 : Reg := ⟨[], [], 0⟩

/-! ## Path expansion: `create_watcher` (daemon.go:39-68)

`create_watcher` resolves each configured root with `filepath.Abs`, then
`filepath.WalkDir`s it, adding to the fsnotify watcher exactly the entries
with `d.IsDir()`; the callback returns nil on walk errors, skipping the
errored entry and continuing.  The filesystem is modelled as a tree; an
`errEntry` is an entry whose visit reports an error (unreadable directory,
broken entry, or a nonexistent root), whose contents are therefore never
enumerated. -/

inductive FsEntry
  | file (name : String)
  | dir (name : String) (children : List FsEntry)
  | errEntry (name : String)

def entryName : FsEntry → String
  | .file n => n
  | .dir n _ => n
  | .errEntry n => n

mutual
/-- The directories added by `filepath.WalkDir(path, fn)` (daemon.go:52-65):
an errored entry is logged and skipped (`return nil`), a file is not added
(`d.IsDir()` fails), a directory is added and its children are walked. -/
def walkCollect (path : String) : FsEntry → List String
  | .file _ => []
  | .errEntry _ => []
  | .dir _ children => path :: walkCollectChildren path children

def walkCollectChildren (path : String) : List FsEntry → List String
  | [] => []
  | c :: cs =>
      walkCollect (path ++ "/" ++ entryName c) c ++ walkCollectChildren path cs
end

/-- The set of directories added to the watcher by `create_watcher(dirs)`
(daemon.go:39-68).  `abs` models `filepath.Abs` (`none` = resolution failure,
which is logged and skips that root via `continue`); `fs` gives the filesystem
tree rooted at an absolute path. -/
def create_watcher_dirs (abs : String → Option String) (fs : String → FsEntry)
    (dirs : List String) : List String :=
  dirs.flatMap fun dir =>
    match abs dir with
    | none => []
    | some absDir => walkCollect absDir (fs absDir)

/-- The specification-side characterisation of "directory reachable from the
walk root": the root itself when it is a directory, or recursively a
reachable directory of one of its children.  Files and errored entries have
no reachable directories. -/
inductive IsDirAt : String → FsEntry → String → Prop
  | here (path : String) (n : String) (ch : List FsEntry) :
      IsDirAt path (.dir n ch) path
  | there (path : String) (n : String) (ch : List FsEntry) (c : FsEntry)
      (p : String) : c ∈ ch → IsDirAt (path ++ "/" ++ entryName c) c p →
      IsDirAt path (.dir n ch) p

/-! ## The event loop of `Run` (daemon.go:70-205) -/

/-- A live fsnotify watcher as owned by `Run`: its identity (allocation
order), the directories it watches, and whether `Close()` was called on it. -/
structure WatchSet where
  id : Nat
  dirs : List String
  closed : Bool
deriving Repr, DecidableEq

/-- An fsnotify event: the path (`event.Name`) and its `Op` bits, as queried
by `event.Has(...)`. -/
structure Ev where
  name : String
  write : Bool
  create : Bool
  remove : Bool
  rename : Bool
  chmod : Bool
deriving Repr, DecidableEq

/-- One arrival on one of the five `select` sources of daemon.go:116-204.
`configEv` carries the result the external `config.InitConfig()` call would
return if reached: `none` = error, `some dirs` = success with
`config.GetWatchDirs()` thereafter returning `dirs`. -/
inductive LoopEvent
  | configEv (e : Ev) (reload : Option (List String))
  | fileEv (e : Ev) (statIsDir : Bool)
  | fileErr (msg : String)
  | configErr (msg : String)
  | sigEv
deriving Repr, DecidableEq

/-- The state owned by `Run`: the current `fileWatcher` variable, the
replaced watchers (for tracking closure), the `debounceTimers` map as
path → deadline, the current time, the next watcher identity, the in-memory
configuration's watch directories, whether the loop is still running, and the
log output (most recent first). -/
structure LoopState where
  fileWatcher : WatchSet
  oldWatchers : List WatchSet
  timers : List (String × Nat)
  now : Nat
  freshId : Nat
  watchDirs : List String
  running : Bool
  logs : List String
deriving Repr, DecidableEq

/-- Models Go `strings.HasSuffix(s, suff)` (used at daemon.go:149). -/
def hasSuffix (s suff : String) : Bool :=
  suff.data.isSuffixOf s.data

/-- Models Go `filepath.Base` on the slash-separated cleaned paths this
daemon compares: the final path component. -/
def baseName (p : String) : String :=
  String.mk ((p.data.reverse.takeWhile (fun c => c != '/')).reverse)

/-- The config-reload success branch, first half: `config.InitConfig()`
succeeded, the in-memory configuration now holds `dirs`, and the success is
logged (daemon.go:132-135). -/
def reloadLogStep (dirs : List String) (s : LoopState) : LoopState :=
  { s with watchDirs := dirs, logs := "Config reloaded successfully" :: s.logs }

/-- Embeds `fileWatcher.Close()` at daemon.go:136. -/
def closeOldStep (s : LoopState) : LoopState :=
  { s with fileWatcher := { s.fileWatcher with closed := true } }

/-- Embeds `fileWatcher = create_watcher(config.GetWatchDirs())` at
daemon.go:137: a fresh watcher over `expand dirs` becomes current and the
previous value of the variable is released to `oldWatchers`. -/
def buildNewStep (expand : List String → List String) (dirs : List String)
    (s : LoopState) : LoopState :=
  { s with fileWatcher := ⟨s.freshId, expand dirs, false⟩,
           oldWatchers := s.fileWatcher :: s.oldWatchers,
           freshId := s.freshId + 1 }

/-- The three micro-states the reload-success branch (daemon.go:132-137)
passes through after the initial state `s`: config updated and logged, old
watcher closed, new watcher built. -/
def reloadSwapTrace (expand : List String → List String) (dirs : List String)
    (s : LoopState) : List LoopState :=
  [s, reloadLogStep dirs s,
   closeOldStep (reloadLogStep dirs s),
   buildNewStep expand dirs (closeOldStep (reloadLogStep dirs s))]

/-- The end state of the reload-success branch. -/
def reloadSuccess (expand : List String → List String) (dirs : List String)
    (s : LoopState) : LoopState :=
  buildNewStep expand dirs (closeOldStep (reloadLogStep dirs s))

/-- Number of watch sets created by `Run` and not yet closed. -/
def activeWatchSets (s : LoopState) : Nat :=
  ((s.fileWatcher :: s.oldWatchers).filter (fun w => !w.closed)).length

/-- One iteration of the `select` loop of daemon.go:116-204.  `expand` is the
directory expansion performed by `create_watcher`; `cfgFile` is
`configFileName` (daemon.go:85). -/
def step (expand : List String → List String) (cfgFile : String)
    (s : LoopState) : LoopEvent → LoopState
  | .configEv e reload =>
      if baseName e.name ≠ cfgFile then s
      else if e.write || e.create then
        match reload with
        | none => { s with logs := "Error reloading config" :: s.logs }
        | some dirs => reloadSuccess expand dirs s
      else s
  | .fileEv e statIsDir =>
      if e.write then
        if hasSuffix e.name "~" || hasSuffix e.name ".swp" then s
        else if statIsDir then s
        else
          { s with timers := (e.name, s.now + debounceDelay) :: eraseKey e.name s.timers,
                   logs := "File changed" :: s.logs }
      else s
  | .fileErr _ => { s with logs := "File watcher error" :: s.logs }
  | .configErr _ => { s with logs := "Config watcher error" :: s.logs }
  | .sigEv => { s with running := false, logs := "Received signal" :: s.logs }

def applySteps (expand : List String → List String) (cfgFile : String)
    (evs : List LoopEvent) (s : LoopState) : LoopState :=
  evs.foldl (step expand cfgFile) s

/-- Decides whether a loop event takes the successful-reload branch of
daemon.go:128-138. -/
def isSuccessfulReload (cfgFile : String) : LoopEvent → Bool
  | .configEv e (some _) => (baseName e.name == cfgFile) && (e.write || e.create)
  | _ => false

/-- The loop state right after startup (daemon.go:70-113): the initial
`fileWatcher := create_watcher(config.GetWatchDirs())` has identity 0. -/
def startupState (expand : List String → List String)
    (initialDirs : List String) : LoopState :=
  { fileWatcher := ⟨0, expand initialDirs, false⟩,
    oldWatchers := [],
    timers := [],
    now := 0,
    freshId := 1,
    watchDirs := initialDirs,
    running := true,
    logs := [] }

/-- Closes the watcher with identity `i`, wherever it lives.  This is the
effect of the `defer fileWatcher.Close()` at daemon.go:111: Go evaluates the
receiver when the `defer` statement executes, so the deferred call always
targets the watcher that was current at startup — identity 0 — not the
variable's value at return. -/
def closeById (i : Nat) (s : LoopState) : LoopState :=
  { s with
    fileWatcher :=
      if s.fileWatcher.id = i then { s.fileWatcher with closed := true }
      else s.fileWatcher,
    oldWatchers :=
      s.oldWatchers.map fun w =>
        if w.id = i then { w with closed := true } else w }

/-- A whole run of the daemon: startup, the event sequence, then the
deferred close of the startup watcher on return. -/
def runDaemon (expand : List String → List String) (cfgFile : String)
    (initialDirs : List String) (evs : List LoopEvent) : LoopState :=
  closeById 0 (applySteps expand cfgFile evs (startupState expand initialDirs))

/-! ## Startup error handling (daemon.go:29-36, 70-111) -/

/-- Embeds `ensure(err, msg, stopOnErr)` (daemon.go:29-36): returns whether
`os.Exit(1)` is reached.  `isErr` stands for `err != nil`. -/
def ensureExits (isErr : Bool) (stopOnErr : Bool) : Bool :=
  isErr && stopOnErr

/-- Outcomes of the external calls made during startup, in program order.
`newConfigWatcherOk` is `fsnotify.NewWatcher()` at daemon.go:74;
`getConfigDirOk` is `config.GetConfigDir()` at daemon.go:79;
`getConfigPathOk` is `config.GetConfigPath()` at daemon.go:82;
`mkdirAllOk` is `os.MkdirAll` at daemon.go:88; `watchConfigDirOk` is
`configWatcher.Add` at daemon.go:93; `initConfigOk` is `config.InitConfig()`
at daemon.go:105; `newFileWatcherOk` is the `fsnotify.NewWatcher()` inside
`create_watcher` at daemon.go:40. -/
structure StartupEnv where
  newConfigWatcherOk : Bool
  getConfigDirOk : Bool
  getConfigPathOk : Bool
  mkdirAllOk : Bool
  watchConfigDirOk : Bool
  initConfigOk : Bool
  newFileWatcherOk : Bool
deriving Repr, DecidableEq

inductive StartupOutcome
  | exitNonZero
  | looping
deriving Repr, DecidableEq

/-- The startup sequence of `Run` (daemon.go:70-113) up to entering the event
loop: each fallible call feeds `ensure` with its `stopOnErr` flag from the
source, or is handled inline with a logged warning.  Returns the outcome and
the warnings logged on the way (most recent first). -/
def startup (env : StartupEnv) : StartupOutcome × List String :=
  if ensureExits (!env.newConfigWatcherOk) true then (.exitNonZero, [])
  else if ensureExits (!env.getConfigDirOk) true then (.exitNonZero, [])
  else if ensureExits (!env.getConfigPathOk) true then (.exitNonZero, [])
  else
    let l1 := if env.mkdirAllOk then [] else ["Warning: Could not create config directory"]
    let l2 := if env.watchConfigDirOk then l1 else "Warning: Could not watch config directory" :: l1
    let l3 := if env.initConfigOk then l2 else "Warning: Failed to load config" :: l2
    if ensureExits (!env.newFileWatcherOk) true then (.exitNonZero, l3)
    else (.looping, l3)

/-! ## Invariants of the running loop -/

/-- Invariant maintained by `Run` from startup on: the current watcher is
open, every replaced watcher is closed, watcher identities are allocated
from 1 upwards, and the startup watcher (identity 0) is either still current
or lies among the replaced watchers. -/
def runInv (s : LoopState) : Prop :=
  s.fileWatcher.closed = false
  ∧ (∀ w ∈ s.oldWatchers, w.closed = true)
  ∧ 1 ≤ s.freshId
  ∧ (s.fileWatcher.id = 0 ∨ ∃ w ∈ s.oldWatchers, w.id = 0)

/-- Strengthening of `runInv` holding from the first successful reload on:
the current watcher is no longer the startup one. -/
def postReloadInv (s : LoopState) : Prop :=
  runInv s ∧ 1 ≤ s.fileWatcher.id

/-! # Theorems -/

lemma debounceGo_tight (delay : Nat) :
    ∀ (events : List Nat) (t : Nat), tightSeq delay (t :: events) →
      debounceGo delay (some (t + delay)) events
        = [(t :: events).getLast (by simp) + delay] := by
  intro events
  induction events with
  | nil => intro t _; simp [debounceGo]
  | cons b rest ih =>
      intro t ht
      obtain ⟨_, hlt, htail⟩ := ht
      have hnb : ¬ t + delay ≤ b := by omega
      simp only [debounceGo, if_neg hnb]
      rw [ih b htail]
      simp

lemma tightSeq_head_lt_getLast (delay : Nat) :
    ∀ (ts : List Nat) (t : Nat), tightSeq delay (t :: ts) → ts ≠ [] →
      t < (t :: ts).getLast (by simp) := by
  intro ts
  induction ts with
  | nil => intro t _ h; exact absurd rfl h
  | cons b rest ih =>
      intro t ht _
      obtain ⟨hlt, _, htail⟩ := ht
      rw [List.getLast_cons_cons]
      cases rest with
      | nil => simpa using hlt
      | cons c rs => exact lt_trans hlt (ih b htail (by simp))

/-- C2: For every sequence of one or more write events for the same path,
each arriving strictly less than the 500 ms quiet period after the previous
one, exactly one deferred upload action fires for that path; it fires 500 ms
after the last event of the sequence, and — whenever there are at least two
events — strictly later than 500 ms after the first event, hence never after
the first. -/
theorem debounce_collapse_single_upload (t : Nat) (ts : List Nat)
    (h : tightSeq debounceDelay (t :: ts)) :
    debounceRun debounceDelay (t :: ts)
        = [(t :: ts).getLast (by simp) + debounceDelay]
    ∧ (debounceRun debounceDelay (t :: ts)).length = 1
    ∧ (ts ≠ [] →
        t + debounceDelay < (t :: ts).getLast (by simp) + debounceDelay) := by
  have h1 : debounceRun debounceDelay (t :: ts)
      = debounceGo debounceDelay (some (t + debounceDelay)) ts := rfl
  refine ⟨?_, ?_, ?_⟩
  · rw [h1]; exact debounceGo_tight debounceDelay ts t h
  · rw [h1, debounceGo_tight debounceDelay ts t h]; rfl
  · intro hne
    have := tightSeq_head_lt_getLast debounceDelay ts t h hne
    omega

/-- Witness for C2 at the concrete scenario of the specification: five write
events for one path at 0, 10, 20, 30, 40 ms collapse into a single upload
fired at 540 ms. -/
theorem debounce_collapse_single_upload_witness :
    debounceRun debounceDelay [0, 10, 20, 30, 40] = [540] := by
  have h := debounce_collapse_single_upload 0 [10, 20, 30, 40] (by decide)
  rw [h.1]
  decide

/-- C3 (evidence of the code bug): when the deferred debounce action fires
for a path and `api.NewClient()` fails (daemon.go:168-171), the callback
returns before the cleanup at daemon.go:181-183, so the path's entry is NOT
removed from `debounceTimers` — the registry is left untouched.  By
contrast, when the client is constructed and the upload itself fails, the
entry is removed, exactly as on success.  The claim's "in every case"
therefore fails precisely on the client-construction failure path. -/
theorem fireCallback_client_failure_keeps_entry :
    ((fireCallback false true "/tmp/a.txt" ⟨[("/tmp/a.txt", 0)], [], 1⟩).1).entries
        = [("/tmp/a.txt", 0)]
    ∧ ((fireCallback true false "/tmp/a.txt" ⟨[("/tmp/a.txt", 0)], [], 1⟩).1).entries
        = []
    ∧ ((fireCallback true true "/tmp/a.txt" ⟨[("/tmp/a.txt", 0)], [], 1⟩).1).entries
        = [] := by
  refine ⟨rfl, ?_, ?_⟩ <;> decide

lemma keys_eraseKey_sublist (p : String) (l : List (String × Nat)) :
    ((eraseKey p l).map Prod.fst).Sublist (l.map Prod.fst) :=
  List.Sublist.map Prod.fst (List.filter_sublist l)

lemma not_mem_keys_eraseKey (p : String) (l : List (String × Nat)) :
    p ∉ (eraseKey p l).map Prod.fst := by
  intro hmem
  obtain ⟨e, he, rfl⟩ := List.mem_map.1 hmem
  have h2 := (List.mem_filter.1 he).2
  simp at h2

lemma keysNodup_eraseKey (p : String) (l : List (String × Nat))
    (h : (l.map Prod.fst).Nodup) : ((eraseKey p l).map Prod.fst).Nodup :=
  h.sublist (keys_eraseKey_sublist p l)

lemma keysNodup_trigger (p : String) (r : Reg)
    (h : (r.entries.map Prod.fst).Nodup) :
    ((trigger p r).entries.map Prod.fst).Nodup := by
  show (((p, r.fresh) :: eraseKey p r.entries).map Prod.fst).Nodup
  rw [List.map_cons, List.nodup_cons]
  exact ⟨not_mem_keys_eraseKey p r.entries, keysNodup_eraseKey p r.entries h⟩

lemma keysNodup_fireCallback (p : String) (c u : Bool) (r : Reg)
    (h : (r.entries.map Prod.fst).Nodup) :
    (((fireCallback c u p r).1).entries.map Prod.fst).Nodup := by
  cases c with
  | false => simpa [fireCallback] using h
  | true =>
      simpa [fireCallback, fireCleanup] using keysNodup_eraseKey p r.entries h

lemma keysNodup_applyRegOps (ops : List RegOp) :
    ∀ r : Reg, (r.entries.map Prod.fst).Nodup →
      ((applyRegOps ops r).entries.map Prod.fst).Nodup := by
  induction ops with
  | nil => intro r h; exact h
  | cons op rest ih =>
      intro r h
      have h1 : ((applyRegOp r op).entries.map Prod.fst).Nodup := by
        cases op with
        | triggerOp p => exact keysNodup_trigger p r h
        | fireOp p c u => exact keysNodup_fireCallback p c u r h
      simpa [applyRegOps, List.foldl_cons] using ih (applyRegOp r op) h1

/-- C8: over every serialization of event-loop triggers and deferred-action
firings starting from the empty registry, the `debounceTimers` map holds at
most one entry per path (its keys stay duplicate-free); a trigger for a path
with an existing entry stops that entry's timer and replaces the entry with
one holding the fresh timer; and removal of a path's entry is idempotent, so
when a superseded and a firing action both attempt the removal only one has
effect. -/
theorem registry_at_most_one_pending_per_path (ops : List RegOp) (p : String)
    (r : Reg) (tid : Nat) :
    ((applyRegOps ops reg0).entries.map Prod.fst).Nodup
    ∧ (r.entries.lookup p = some tid →
        tid ∈ (trigger p r).stopped
        ∧ (trigger p r).entries.lookup p = some r.fresh)
    ∧ fireCleanup p (fireCleanup p r) = fireCleanup p r := by
  refine ⟨keysNodup_applyRegOps ops reg0 (by simp [reg0]), ?_, ?_⟩
  · intro h
    constructor
    · have hs : (trigger p r).stopped = tid :: r.stopped := by
        simp [trigger, h]
      rw [hs]
      exact List.mem_cons_self _ _
    · show List.lookup p ((p, r.fresh) :: eraseKey p r.entries) = some r.fresh
      simp [List.lookup]
  · show ({ r with entries := eraseKey p (eraseKey p r.entries) } : Reg)
        = { r with entries := eraseKey p r.entries }
    simp [eraseKey, List.filter_filter, Bool.and_self]

/-- Witness for C8: a registry holding one entry for path "a" with timer 3
and allocation counter 7: a new trigger stops timer 3 and replaces the entry
with timer 7, and a concrete operation interleaving keeps keys unique. -/
theorem registry_at_most_one_pending_witness :
    3 ∈ (trigger "a" ⟨[("a", 3)], [], 7⟩).stopped
    ∧ (trigger "a" ⟨[("a", 3)], [], 7⟩).entries.lookup "a" = some 7
    ∧ ((applyRegOps [.triggerOp "a", .triggerOp "a", .fireOp "a" true true]
          reg0).entries.map Prod.fst).Nodup := by
  have h := registry_at_most_one_pending_per_path
    [.triggerOp "a", .triggerOp "a", .fireOp "a" true true] "a"
    ⟨[("a", 3)], [], 7⟩ 3
  have h2 := h.2.1 (by decide)
  exact ⟨h2.1, h2.2, h.1⟩

/-- C1 is false on the code: in the successful-reload branch
(daemon.go:132-137) the old Watch Set is closed BEFORE the replacement is
built.  Starting from a state with one open watcher, the swap trace passes
through the micro-state right after `fileWatcher.Close()` (daemon.go:136) in
which zero watch sets are active while no replacement watcher has been
allocated yet (the allocation counter is untouched) — contradicting both
"builds the fresh Watch Set first" and "at no point during the swap are both
watch sets closed". -/
theorem reload_swap_zero_active_counterexample :
    activeWatchSets
        ((reloadSwapTrace id ["new"]
            ⟨⟨0, ["old"], false⟩, [], [], 0, 1, ["old"], true, []⟩).get
          ⟨2, by decide⟩) = 0
    ∧ ((reloadSwapTrace id ["new"]
            ⟨⟨0, ["old"], false⟩, [], [], 0, 1, ["old"], true, []⟩).get
          ⟨2, by decide⟩).freshId = 1 := by
  decide

/-- C1 (amended): on a successful configuration reload the Event Loop closes
the old Watch Set FIRST (daemon.go:136) and builds the fresh one only
afterwards (daemon.go:137).  From any state whose replaced watchers are all
closed, the swap trace is exactly
config-update, close-old, build-new; immediately after the close no watch
set is active and no replacement has been allocated; after the build the new
watch set, covering the expansion of the reloaded directories, is active and
every old watch set is closed. -/
theorem reload_close_then_build (expand : List String → List String)
    (dirs : List String) (s : LoopState)
    (hold : ∀ w ∈ s.oldWatchers, w.closed = true) :
    reloadSwapTrace expand dirs s
        = [s, reloadLogStep dirs s, closeOldStep (reloadLogStep dirs s),
           reloadSuccess expand dirs s]
    ∧ activeWatchSets (closeOldStep (reloadLogStep dirs s)) = 0
    ∧ (closeOldStep (reloadLogStep dirs s)).freshId = s.freshId
    ∧ (reloadSuccess expand dirs s).fileWatcher.closed = false
    ∧ (reloadSuccess expand dirs s).fileWatcher.dirs = expand dirs
    ∧ (reloadSuccess expand dirs s).watchDirs = dirs
    ∧ (∀ w ∈ (reloadSuccess expand dirs s).oldWatchers, w.closed = true) := by
  refine ⟨rfl, ?_, rfl, rfl, rfl, rfl, ?_⟩
  · have hnil : (s.oldWatchers.filter (fun w => !w.closed)) = [] := by
      rw [List.filter_eq_nil_iff]
      intro w hw
      simp [hold w hw]
    simp [activeWatchSets, closeOldStep, reloadLogStep, List.filter_cons, hnil]
  · intro w hw
    simp [reloadSuccess, buildNewStep, closeOldStep, reloadLogStep,
      List.mem_cons] at hw
    rcases hw with rfl | hw2
    · rfl
    · exact hold w hw2

/-- Witness for C1 (amended) at a concrete open-watcher state. -/
theorem reload_close_then_build_witness :
    activeWatchSets (closeOldStep (reloadLogStep ["b"]
        ⟨⟨0, ["a"], false⟩, [], [], 0, 1, ["a"], true, []⟩)) = 0
    ∧ (reloadSuccess id ["b"]
        ⟨⟨0, ["a"], false⟩, [], [], 0, 1, ["a"], true, []⟩).fileWatcher.closed
        = false := by
  have h := reload_close_then_build id ["b"]
    ⟨⟨0, ["a"], false⟩, [], [], 0, 1, ["a"], true, []⟩
    (by intro w hw; simp at hw)
  exact ⟨h.2.1, h.2.2.2.1⟩

lemma step_filtered_fileEv (expand : List String → List String)
    (cfgFile : String) (s : LoopState) (e : Ev) (d : Bool)
    (h : e.write = false ∨ hasSuffix e.name "~" = true
      ∨ hasSuffix e.name ".swp" = true ∨ d = true) :
    step expand cfgFile s (.fileEv e d) = s := by
  rcases h with h | h | h | h <;> cases hw : e.write <;>
    cases hs1 : hasSuffix e.name "~" <;>
      cases hs2 : hasSuffix e.name ".swp" <;>
        cases d <;> simp_all [step]

lemma applySteps_filtered (expand : List String → List String)
    (cfgFile : String) :
    ∀ (evs : List (Ev × Bool)) (s : LoopState),
      (∀ ed ∈ evs, ed.1.write = false ∨ hasSuffix ed.1.name "~" = true
        ∨ hasSuffix ed.1.name ".swp" = true ∨ ed.2 = true) →
      applySteps expand cfgFile
        (evs.map fun ed => LoopEvent.fileEv ed.1 ed.2) s = s := by
  intro evs
  induction evs with
  | nil => intro s _; rfl
  | cons ed rest ih =>
      intro s h
      have h1 := step_filtered_fileEv expand cfgFile s ed.1 ed.2 (h ed (by simp))
      calc applySteps expand cfgFile
            ((ed :: rest).map fun x => LoopEvent.fileEv x.1 x.2) s
          = applySteps expand cfgFile (rest.map fun x => LoopEvent.fileEv x.1 x.2)
              (step expand cfgFile s (.fileEv ed.1 ed.2)) := rfl
        _ = step expand cfgFile s (.fileEv ed.1 ed.2) :=
            ih _ (fun x hm => h x (by simp [hm]))
        _ = s := h1

/-- C5: a watch-set event whose kind lacks the write bit, or whose path ends
in a backup suffix, or whose path currently stats as a directory, is dropped
by the filters at daemon.go:147-156: it leaves the loop state — in
particular the `debounceTimers` registry — exactly unchanged, so no debounce
timer is ever scheduled for it and, since uploads are launched only by
scheduled timers, no upload call is ever made for it, regardless of how many
such events arrive. -/
theorem filtered_events_produce_nothing (expand : List String → List String)
    (cfgFile : String) (s : LoopState) (evs : List (Ev × Bool))
    (h : ∀ ed ∈ evs, ed.1.write = false ∨ hasSuffix ed.1.name "~" = true
      ∨ hasSuffix ed.1.name ".swp" = true ∨ ed.2 = true) :
    applySteps expand cfgFile
        (evs.map fun ed => LoopEvent.fileEv ed.1 ed.2) s = s
    ∧ (applySteps expand cfgFile
        (evs.map fun ed => LoopEvent.fileEv ed.1 ed.2) s).timers = s.timers := by
  have main := applySteps_filtered expand cfgFile evs s h
  exact ⟨main, by rw [main]⟩

/-- Witness for C5: a chmod-only event, a backup-file write, a swap-file
write and a directory write all leave a concrete state untouched. -/
theorem filtered_events_produce_nothing_witness :
    applySteps id "c"
        ([((⟨"x", false, false, false, false, true⟩ : Ev), false),
          ((⟨"x~", true, false, false, false, false⟩ : Ev), false),
          ((⟨".x.swp", true, false, false, false, false⟩ : Ev), false),
          ((⟨"d", true, false, false, false, false⟩ : Ev), true)].map
          fun ed => LoopEvent.fileEv ed.1 ed.2)
        ⟨⟨0, ["a"], false⟩, [], [], 0, 1, ["a"], true, []⟩
      = ⟨⟨0, ["a"], false⟩, [], [], 0, 1, ["a"], true, []⟩ :=
  (filtered_events_produce_nothing id "c"
    ⟨⟨0, ["a"], false⟩, [], [], 0, 1, ["a"], true, []⟩
    [((⟨"x", false, false, false, false, true⟩ : Ev), false),
     ((⟨"x~", true, false, false, false, false⟩ : Ev), false),
     ((⟨".x.swp", true, false, false, false, false⟩ : Ev), false),
     ((⟨"d", true, false, false, false, false⟩ : Ev), true)] (by decide)).1

/-- C4: when a matching create-or-write config event arrives and the reload
fails (daemon.go:132-133), the loop logs the error and nothing else changes:
the current watcher, the replaced watchers, the in-memory watch directories,
the debounce registry and the running flag all stay as they were, and the
loop keeps running. -/
theorem reload_failure_keeps_previous_state (expand : List String → List String)
    (cfgFile : String) (s : LoopState) (e : Ev)
    (hmatch : baseName e.name = cfgFile) (hkind : (e.write || e.create) = true) :
    (step expand cfgFile s (.configEv e none)).fileWatcher = s.fileWatcher
    ∧ (step expand cfgFile s (.configEv e none)).oldWatchers = s.oldWatchers
    ∧ (step expand cfgFile s (.configEv e none)).watchDirs = s.watchDirs
    ∧ (step expand cfgFile s (.configEv e none)).timers = s.timers
    ∧ (step expand cfgFile s (.configEv e none)).running = s.running
    ∧ (step expand cfgFile s (.configEv e none)).logs
        = "Error reloading config" :: s.logs := by
  have hstep : step expand cfgFile s (.configEv e none)
      = { s with logs := "Error reloading config" :: s.logs } := by
    simp [step, hmatch, hkind]
  rw [hstep]
  exact ⟨rfl, rfl, rfl, rfl, rfl, rfl⟩

/-- Witness for C4: a failed reload of config file `h/c` leaves a concrete
state's watcher and configuration in place. -/
theorem reload_failure_keeps_previous_state_witness :
    baseName "h/c" = "c"
    ∧ (step id "c" ⟨⟨0, ["a"], false⟩, [], [], 0, 1, ["a"], true, []⟩
        (.configEv ⟨"h/c", true, false, false, false, false⟩ none)).fileWatcher
      = ⟨0, ["a"], false⟩ := by
  have h := reload_failure_keeps_previous_state id "c"
    ⟨⟨0, ["a"], false⟩, [], [], 0, 1, ["a"], true, []⟩
    ⟨"h/c", true, false, false, false, false⟩ (by decide) (by decide)
  exact ⟨by decide, h.1⟩

lemma step_not_reload_preserves_watchers (expand : List String → List String)
    (cfgFile : String) (s : LoopState) (ev : LoopEvent)
    (h : isSuccessfulReload cfgFile ev = false) :
    (step expand cfgFile s ev).fileWatcher = s.fileWatcher
    ∧ (step expand cfgFile s ev).oldWatchers = s.oldWatchers
    ∧ (step expand cfgFile s ev).freshId = s.freshId := by
  cases ev with
  | configEv e reload =>
      by_cases hb : baseName e.name = cfgFile
      · cases reload with
        | none => cases hk : (e.write || e.create) <;> simp [step, hb, hk]
        | some dirs =>
            have hk : (e.write || e.create) = false := by
              simpa [isSuccessfulReload, hb] using h
            simp [step, hb, hk]
      · cases reload <;> simp [step, hb]
  | fileEv e d =>
      cases hw : e.write <;>
        cases hs1 : hasSuffix e.name "~" <;>
          cases hs2 : hasSuffix e.name ".swp" <;>
            cases d <;> simp [step, hw, hs1, hs2]
  | fileErr m => simp [step]
  | configErr m => simp [step]
  | sigEv => simp [step]

lemma applySteps_no_reload_preserves_watcher (expand : List String → List String)
    (cfgFile : String) :
    ∀ (evs : List LoopEvent) (s : LoopState),
      (∀ ev ∈ evs, isSuccessfulReload cfgFile ev = false) →
      (applySteps expand cfgFile evs s).fileWatcher = s.fileWatcher := by
  intro evs
  induction evs with
  | nil => intro s _; rfl
  | cons ev rest ih =>
      intro s h
      calc (applySteps expand cfgFile (ev :: rest) s).fileWatcher
          = (applySteps expand cfgFile rest (step expand cfgFile s ev)).fileWatcher := rfl
        _ = (step expand cfgFile s ev).fileWatcher :=
            ih _ (fun e2 hm => h e2 (by simp [hm]))
        _ = s.fileWatcher :=
            (step_not_reload_preserves_watchers expand cfgFile s ev
              (h ev (by simp))).1

/-- C10: handling a watch-set file event of any kind leaves the Watch Set
(identity, watched-directory list, open flag) unchanged; the only event
whose handling can change the current Watch Set is a matching create-or-write
config event with a successful reload; hence over any event sequence free of
successful reloads the watched directory set stays exactly as last built —
in particular a directory created under a watched root after the last build
stays unwatched until the next successful configuration reload. -/
theorem file_events_leave_watch_set_unchanged (expand : List String → List String)
    (cfgFile : String) (s : LoopState) (e : Ev) (d : Bool) (evs : List LoopEvent)
    (hno : ∀ ev ∈ evs, isSuccessfulReload cfgFile ev = false) :
    (step expand cfgFile s (.fileEv e d)).fileWatcher = s.fileWatcher
    ∧ (∀ ev, (step expand cfgFile s ev).fileWatcher ≠ s.fileWatcher →
        isSuccessfulReload cfgFile ev = true)
    ∧ (applySteps expand cfgFile evs s).fileWatcher = s.fileWatcher := by
  refine ⟨(step_not_reload_preserves_watchers expand cfgFile s
    (.fileEv e d) rfl).1, ?_, ?_⟩
  · intro ev hne
    cases hval : isSuccessfulReload cfgFile ev with
    | false =>
        exact absurd
          (step_not_reload_preserves_watchers expand cfgFile s ev hval).1 hne
    | true => rfl
  · exact applySteps_no_reload_preserves_watcher expand cfgFile evs s hno

/-- Witness for C10: a write event under a watched root plus a shutdown
signal leave the concrete Watch Set exactly as built. -/
theorem file_events_leave_watch_set_unchanged_witness :
    (∀ ev ∈ [LoopEvent.fileEv ⟨"x", true, false, false, false, false⟩ false,
        LoopEvent.sigEv], isSuccessfulReload "c" ev = false)
    ∧ (applySteps id "c"
        [LoopEvent.fileEv ⟨"x", true, false, false, false, false⟩ false,
         LoopEvent.sigEv]
        ⟨⟨0, ["a"], false⟩, [], [], 0, 1, ["a"], true, []⟩).fileWatcher
      = ⟨0, ["a"], false⟩ := by
  have h := file_events_leave_watch_set_unchanged id "c"
    ⟨⟨0, ["a"], false⟩, [], [], 0, 1, ["a"], true, []⟩
    ⟨"x", true, false, false, false, false⟩ false
    [LoopEvent.fileEv ⟨"x", true, false, false, false, false⟩ false,
     LoopEvent.sigEv] (by decide)
  exact ⟨by decide, h.2.2⟩

/-- C6 is false on the code: `Run` also exits non-zero when the resolution
of the configuration directory or of the configuration file path fails —
daemon.go:79-83 feed those errors to `ensure` with `stopOnErr = true` — even
when both fsnotify watcher creations succeed.  A startup in which every call
succeeds except `config.GetConfigDir()` (respectively
`config.GetConfigPath()`) exits non-zero. -/
theorem getConfigDir_failure_exits_counterexample :
    (startup ⟨true, false, true, true, true, true, true⟩).1
        = StartupOutcome.exitNonZero
    ∧ (startup ⟨true, true, false, true, true, true, true⟩).1
        = StartupOutcome.exitNonZero := by
  decide

/-- C6 (amended): startup exits non-zero exactly when one of the two
fsnotify watcher creations, the config-directory resolution, or the
config-path resolution fails; config-directory creation, config-directory
subscription and the initial config load produce logged warnings only; and
error events reaching the running loop never stop it. -/
theorem startup_fatal_conditions (env : StartupEnv)
    (expand : List String → List String) (cfgFile : String) (s : LoopState)
    (m : String) :
    ((startup env).1 = StartupOutcome.exitNonZero ↔
      (env.newConfigWatcherOk = false ∨ env.getConfigDirOk = false
        ∨ env.getConfigPathOk = false ∨ env.newFileWatcherOk = false))
    ∧ (startup ⟨true, true, true, false, false, false, true⟩).1
        = StartupOutcome.looping
    ∧ (step expand cfgFile s (.fileErr m)).running = s.running
    ∧ (step expand cfgFile s (.configErr m)).running = s.running := by
  refine ⟨?_, by decide, rfl, rfl⟩
  obtain ⟨a, b, c, d, e2, f, g⟩ := env
  cases a <;> cases b <;> cases c <;> cases g <;> simp [startup, ensureExits]

lemma reloadSuccess_parts (expand : List String → List String)
    (dirs : List String) (s : LoopState) :
    (reloadSuccess expand dirs s).fileWatcher = ⟨s.freshId, expand dirs, false⟩
    ∧ (reloadSuccess expand dirs s).oldWatchers
        = { s.fileWatcher with closed := true } :: s.oldWatchers
    ∧ (reloadSuccess expand dirs s).freshId = s.freshId + 1 :=
  ⟨rfl, rfl, rfl⟩

lemma step_reload_eq (expand : List String → List String) (cfgFile : String)
    (s : LoopState) (e : Ev) (dirs : List String)
    (h : isSuccessfulReload cfgFile (.configEv e (some dirs)) = true) :
    step expand cfgFile s (.configEv e (some dirs))
      = reloadSuccess expand dirs s := by
  simp only [isSuccessfulReload, Bool.and_eq_true, beq_iff_eq] at h
  simp [step, h.1, h.2]

lemma runInv_startup (expand : List String → List String)
    (initialDirs : List String) :
    runInv (startupState expand initialDirs) := by
  refine ⟨rfl, ?_, le_refl 1, Or.inl rfl⟩
  intro w hw
  simp [startupState] at hw

lemma runInv_reloadSuccess (expand : List String → List String)
    (dirs : List String) (s : LoopState) (h : runInv s) :
    runInv (reloadSuccess expand dirs s)
    ∧ 1 ≤ (reloadSuccess expand dirs s).fileWatcher.id := by
  obtain ⟨h1, h2, h3, h4⟩ := h
  obtain ⟨pfw, pold, pfresh⟩ := reloadSuccess_parts expand dirs s
  refine ⟨⟨by rw [pfw], ?_, by rw [pfresh]; omega, ?_⟩, by rw [pfw]; exact h3⟩
  · intro w hw
    rw [pold] at hw
    rcases List.mem_cons.1 hw with rfl | hw2
    · rfl
    · exact h2 w hw2
  · right
    rcases h4 with h0 | ⟨w, hw, hid⟩
    · exact ⟨{ s.fileWatcher with closed := true },
        by rw [pold]; exact List.mem_cons_self _ _, h0⟩
    · exact ⟨w, by rw [pold]; exact List.mem_cons_of_mem _ hw, hid⟩

lemma step_preserves_runInv (expand : List String → List String)
    (cfgFile : String) (s : LoopState) (ev : LoopEvent) (h : runInv s) :
    runInv (step expand cfgFile s ev) := by
  cases hval : isSuccessfulReload cfgFile ev with
  | false =>
      obtain ⟨hfw, hold, hf⟩ :=
        step_not_reload_preserves_watchers expand cfgFile s ev hval
      obtain ⟨h1, h2, h3, h4⟩ := h
      exact ⟨by rw [hfw]; exact h1, by rw [hold]; exact h2,
        by rw [hf]; exact h3, by rw [hfw, hold]; exact h4⟩
  | true =>
      cases ev with
      | configEv e reload =>
          cases reload with
          | none => simp [isSuccessfulReload] at hval
          | some dirs =>
              rw [step_reload_eq expand cfgFile s e dirs hval]
              exact (runInv_reloadSuccess expand dirs s h).1
      | fileEv e d => simp [isSuccessfulReload] at hval
      | fileErr m => simp [isSuccessfulReload] at hval
      | configErr m => simp [isSuccessfulReload] at hval
      | sigEv => simp [isSuccessfulReload] at hval

lemma step_preserves_postReloadInv (expand : List String → List String)
    (cfgFile : String) (s : LoopState) (ev : LoopEvent) (h : postReloadInv s) :
    postReloadInv (step expand cfgFile s ev) := by
  obtain ⟨hinv, hid⟩ := h
  refine ⟨step_preserves_runInv expand cfgFile s ev hinv, ?_⟩
  cases hval : isSuccessfulReload cfgFile ev with
  | false =>
      obtain ⟨hfw, _, _⟩ :=
        step_not_reload_preserves_watchers expand cfgFile s ev hval
      rw [hfw]; exact hid
  | true =>
      cases ev with
      | configEv e reload =>
          cases reload with
          | none => simp [isSuccessfulReload] at hval
          | some dirs =>
              rw [step_reload_eq expand cfgFile s e dirs hval,
                (reloadSuccess_parts expand dirs s).1]
              exact hinv.2.2.1
      | fileEv e d => simp [isSuccessfulReload] at hval
      | fileErr m => simp [isSuccessfulReload] at hval
      | configErr m => simp [isSuccessfulReload] at hval
      | sigEv => simp [isSuccessfulReload] at hval

lemma step_reload_establishes_postReloadInv (expand : List String → List String)
    (cfgFile : String) (s : LoopState) (ev : LoopEvent)
    (h : runInv s) (hval : isSuccessfulReload cfgFile ev = true) :
    postReloadInv (step expand cfgFile s ev) := by
  refine ⟨step_preserves_runInv expand cfgFile s ev h, ?_⟩
  cases ev with
  | configEv e reload =>
      cases reload with
      | none => simp [isSuccessfulReload] at hval
      | some dirs =>
          rw [step_reload_eq expand cfgFile s e dirs hval,
            (reloadSuccess_parts expand dirs s).1]
          exact h.2.2.1
  | fileEv e d => simp [isSuccessfulReload] at hval
  | fileErr m => simp [isSuccessfulReload] at hval
  | configErr m => simp [isSuccessfulReload] at hval
  | sigEv => simp [isSuccessfulReload] at hval

lemma applySteps_preserves_postReloadInv (expand : List String → List String)
    (cfgFile : String) :
    ∀ (evs : List LoopEvent) (s : LoopState), postReloadInv s →
      postReloadInv (applySteps expand cfgFile evs s) := by
  intro evs
  induction evs with
  | nil => intro s h; exact h
  | cons ev rest ih =>
      intro s h
      exact ih _ (step_preserves_postReloadInv expand cfgFile s ev h)

lemma applySteps_preserves_runInv (expand : List String → List String)
    (cfgFile : String) :
    ∀ (evs : List LoopEvent) (s : LoopState), runInv s →
      runInv (applySteps expand cfgFile evs s) := by
  intro evs
  induction evs with
  | nil => intro s h; exact h
  | cons ev rest ih =>
      intro s h
      exact ih _ (step_preserves_runInv expand cfgFile s ev h)

/-- C9: the `defer fileWatcher.Close()` registered at daemon.go:111 captures
the watcher built at startup (identity 0) — Go evaluates the receiver at the
`defer` statement — so in every run containing at least one successful
configuration reload, the deferred close at shutdown targets the startup
watcher, which already sits among the replaced watchers and was already
closed by the reload path, while the Watch Set active at shutdown has
identity ≠ 0 and is never closed by `Run`. -/
theorem deferred_close_misses_active_watcher (expand : List String → List String)
    (cfgFile : String) (initialDirs : List String) (evs : List LoopEvent)
    (h : ∃ ev ∈ evs, isSuccessfulReload cfgFile ev = true) :
    (runDaemon expand cfgFile initialDirs evs).fileWatcher.closed = false
    ∧ (runDaemon expand cfgFile initialDirs evs).fileWatcher.id ≠ 0
    ∧ (∃ w ∈ (runDaemon expand cfgFile initialDirs evs).oldWatchers,
        w.id = 0 ∧ w.closed = true)
    ∧ (∀ w ∈ (runDaemon expand cfgFile initialDirs evs).oldWatchers,
        w.closed = true) := by
  obtain ⟨ev, hmem, hval⟩ := h
  obtain ⟨l1, l2, rfl⟩ := List.append_of_mem hmem
  have hsplit : applySteps expand cfgFile (l1 ++ ev :: l2)
        (startupState expand initialDirs)
      = applySteps expand cfgFile l2 (step expand cfgFile
          (applySteps expand cfgFile l1 (startupState expand initialDirs)) ev) := by
    simp [applySteps, List.foldl_append]
  have hinv1 : runInv (applySteps expand cfgFile l1 (startupState expand initialDirs)) :=
    applySteps_preserves_runInv expand cfgFile l1 _
      (runInv_startup expand initialDirs)
  have hfin : postReloadInv (applySteps expand cfgFile l2 (step expand cfgFile
      (applySteps expand cfgFile l1 (startupState expand initialDirs)) ev)) :=
    applySteps_preserves_postReloadInv expand cfgFile l2 _
      (step_reload_establishes_postReloadInv expand cfgFile _ ev hinv1 hval)
  obtain ⟨⟨hclosed, holdw, _hfresh, hloc⟩, hid⟩ := hfin
  rw [← hsplit] at hclosed holdw hloc hid
  have hne : (applySteps expand cfgFile (l1 ++ ev :: l2)
      (startupState expand initialDirs)).fileWatcher.id ≠ 0 := by omega
  have hzero : ∃ w ∈ (applySteps expand cfgFile (l1 ++ ev :: l2)
      (startupState expand initialDirs)).oldWatchers, w.id = 0 := by
    rcases hloc with h0 | hz
    · exact absurd h0 hne
    · exact hz
  refine ⟨?_, ?_, ?_, ?_⟩
  · show (closeById 0 _).fileWatcher.closed = false
    simp only [closeById]
    rw [if_neg hne]
    exact hclosed
  · show (closeById 0 _).fileWatcher.id ≠ 0
    simp only [closeById]
    rw [if_neg hne]
    exact hne
  · obtain ⟨w, hw, hw0⟩ := hzero
    refine ⟨if w.id = 0 then { w with closed := true } else w, ?_, ?_⟩
    · exact List.mem_map_of_mem _ hw
    · rw [if_pos hw0]
      exact ⟨hw0, rfl⟩
  · intro w hw
    obtain ⟨w0, hw0, rfl⟩ := List.mem_map.1 hw
    by_cases h0 : w0.id = 0
    · rw [if_pos h0]
    · rw [if_neg h0]
      exact holdw w0 hw0

/-- Witness for C9: one successful reload of config file "c" replaces the
startup watcher; at shutdown the active watcher (identity 1) stays open. -/
theorem deferred_close_misses_active_watcher_witness :
    (∃ ev ∈ [LoopEvent.configEv ⟨"c", true, false, false, false, false⟩
        (some ["b"])], isSuccessfulReload "c" ev = true)
    ∧ (runDaemon id "c" ["a"]
        [LoopEvent.configEv ⟨"c", true, false, false, false, false⟩
          (some ["b"])]).fileWatcher.closed = false
    ∧ (runDaemon id "c" ["a"]
        [LoopEvent.configEv ⟨"c", true, false, false, false, false⟩
          (some ["b"])]).fileWatcher.id ≠ 0 := by
  have h := deferred_close_misses_active_watcher id "c" ["a"]
    [LoopEvent.configEv ⟨"c", true, false, false, false, false⟩ (some ["b"])]
    ⟨LoopEvent.configEv ⟨"c", true, false, false, false, false⟩ (some ["b"]),
      by simp, by decide⟩
  exact ⟨⟨LoopEvent.configEv ⟨"c", true, false, false, false, false⟩
      (some ["b"]), by simp, by decide⟩, h.1, h.2.1⟩

mutual
theorem mem_walkCollect (a p : String) (t : FsEntry) :
    p ∈ walkCollect a t ↔ IsDirAt a t p := by
  cases t with
  | file n =>
      constructor
      · intro h; simp [walkCollect] at h
      · intro h; cases h
  | errEntry n =>
      constructor
      · intro h; simp [walkCollect] at h
      · intro h; cases h
  | dir n ch =>
      constructor
      · intro h
        rw [walkCollect] at h
        rcases List.mem_cons.1 h with rfl | h2
        · exact IsDirAt.here p n ch
        · obtain ⟨c, hc, hdir⟩ := (mem_walkCollectChildren a p ch).1 h2
          exact IsDirAt.there a n ch c p hc hdir
      · intro h
        rw [walkCollect]
        cases h with
        | here _ _ _ => exact List.mem_cons_self _ _
        | there _ _ _ c _ hc hdir =>
            exact List.mem_cons_of_mem _
              ((mem_walkCollectChildren a p ch).2 ⟨c, hc, hdir⟩)

theorem mem_walkCollectChildren (a p : String) (l : List FsEntry) :
    p ∈ walkCollectChildren a l ↔
      ∃ c ∈ l, IsDirAt (a ++ "/" ++ entryName c) c p := by
  cases l with
  | nil =>
      constructor
      · intro h; simp [walkCollectChildren] at h
      · rintro ⟨c, hc, _⟩; simp at hc
  | cons c cs =>
      rw [walkCollectChildren]
      constructor
      · intro h
        rcases List.mem_append.1 h with h1 | h2
        · exact ⟨c, List.mem_cons_self _ _,
            (mem_walkCollect (a ++ "/" ++ entryName c) p c).1 h1⟩
        · obtain ⟨c2, hc2, hd⟩ := (mem_walkCollectChildren a p cs).1 h2
          exact ⟨c2, List.mem_cons_of_mem _ hc2, hd⟩
      · rintro ⟨c2, hc2, hd⟩
        rcases List.mem_cons.1 hc2 with rfl | hc3
        · exact List.mem_append.2
            (Or.inl ((mem_walkCollect (a ++ "/" ++ entryName c2) p c2).2 hd))
        · exact List.mem_append.2
            (Or.inr ((mem_walkCollectChildren a p cs).2 ⟨c2, hc3, hd⟩))
end

/-- C7: the directories `create_watcher` adds are characterised exactly: a
path is watched iff some root of the ordered sequence resolves (via
`filepath.Abs`) to an absolute path from which that path is reachable as a
directory.  In particular a root that fails resolution contributes nothing
while the remaining roots are still expanded; the resolved root itself is
watched when it is a directory (`IsDirAt.here`) as are nested directories at
any depth (`IsDirAt.there`); regular files contribute no entry, and an entry
whose visit errors is skipped without aborting the rest of the walk, its
subtree contributing nothing. -/
theorem create_watcher_collects_exactly_directories
    (abs : String → Option String) (fs : String → FsEntry)
    (roots : List String) (p : String) :
    (p ∈ create_watcher_dirs abs fs roots ↔
      ∃ r ∈ roots, ∃ a, abs r = some a ∧ IsDirAt a (fs a) p)
    ∧ (∀ a n, walkCollect a (FsEntry.file n) = [])
    ∧ (∀ a n, walkCollect a (FsEntry.errEntry n) = []) := by
  refine ⟨?_, fun a n => by rw [walkCollect], fun a n => by rw [walkCollect]⟩
  rw [create_watcher_dirs, List.mem_flatMap]
  constructor
  · rintro ⟨r, hr, hp⟩
    cases habs : abs r with
    | none => rw [habs] at hp; simp at hp
    | some a =>
        rw [habs] at hp
        exact ⟨r, hr, a, habs, (mem_walkCollect a p (fs a)).1 hp⟩
  · rintro ⟨r, hr, a, habs, hdir⟩
    refine ⟨r, hr, ?_⟩
    rw [habs]
    exact (mem_walkCollect a p (fs a)).2 hdir

end Daemon
